import Mathlib

set_option maxRecDepth 100000

/-!
Shallow embedding of the `web_ical` crate (src/lib.rs): the iCalendar
line-oriented parser (`parse_cal` / `parse_event`), the fixed-format
date-time converter (`convert_datetime` applied at format "%Y%m%dT%H%M%S"),
the data model (`Calendar`, `Event`, `Repeat`) and the serializer
(`Calendar::export_to`).

Modelling conventions:
- Rust `DateTime<Utc>` values are modelled as a record of civil fields
  (`UtcInstant`); the timeline (seconds since the Unix epoch) is recovered
  by `toSecs`, a standard civil-to-epoch-day conversion, which is what
  chrono's `signed_duration_since` computes for whole-second instants.
- Fallible code returns `Except`; a Rust panic (`assert!`, `assert_eq!`,
  `expect`, `unwrap`, out-of-bounds slice) is modelled as
  `Except.error (PErr.panicked msg)`, distinct from the `anyhow::Result`
  error path which is `Except.error PErr.eof` (the only `Err` the parser
  ever produces itself is `ErrorKind::UnexpectedEof`).
- `Cursor::read_line` + `buf.pop()` is modelled by `linesOf` (each element
  is a line INCLUDING its trailing '\n' when present; the final segment of
  an unterminated input is returned without one) and `chop` (drop the last
  character, whatever it is -- this mirrors `buf.pop()`, which removes only
  one character, so the '\r' of a CRLF line terminator is retained).
- The two mutually-consuming Rust loops (`parse_cal`'s loop and the nested
  `parse_event`) are modelled as one step function `runLines` over the
  remaining line list with an explicit mode: `cur = none` is control inside
  `parse_cal`'s loop, `cur = some ev` is control inside `parse_event` with
  accumulator `ev`.
- String helpers (`splitOnce`, `splitSemis`, `strStartsWith`, `strDrop`,
  `bareKey`) are defined by structural recursion over `String.data` so that
  every definition evaluates inside the kernel; they implement exactly
  Rust's `str::split_once(':')`, `str::split(';')`, `str::starts_with`,
  byte slicing (ASCII inputs), and `key.split(';').next().unwrap_or(key)`.
-/

namespace WebIcal

/-- Error outcome of the parser: `eof` models the `anyhow` error built from
`io::ErrorKind::UnexpectedEof`; `panicked` models a Rust panic. -/
inductive PErr where
  | eof
  | panicked (msg : String)
deriving DecidableEq

/-- Model of chrono `DateTime<Utc>` as civil UTC fields. -/
structure UtcInstant where
  year : Nat
  month : Nat
  day : Nat
  hour : Nat
  minute : Nat
  second : Nat
deriving DecidableEq

/-- Model of `struct Repeat { freq: String, until: Option<DateTime<Utc>> }`.
The Rust field `until` is `until_` because `until` is a Lean keyword. -/
structure Repeat where
  freq : String
  until_ : Option UtcInstant
deriving DecidableEq

/-- Model of `struct Event` (field `repeat` is `repeat_` and `class` is
`class_` because those are Lean keywords; all other names are the Rust
ones, in declaration order). -/
structure Event where
  dtstamp : Option UtcInstant
  uid : Option String
  dtstart : Option UtcInstant
  dtend : Option UtcInstant
  created : Option UtcInstant
  description : Option String
  last_modified : Option UtcInstant
  location : Option String
  organizer : Option String
  sequence : Option Nat
  status : Option String
  summary : Option String
  transp : Option String
  repeat_ : Option Repeat
  class_ : Option String
  geo : Option String
  priority : Option String
  recur_id : Option String
  url : Option String
deriving DecidableEq

/-- Model of `Event::empty()`. -/
def Event.empty : Event where
  dtstart := none
  dtend := none
  dtstamp := none
  uid := none
  created := none
  description := none
  last_modified := none
  location := none
  organizer := none
  sequence := none
  status := none
  summary := none
  transp := none
  repeat_ := none
  class_ := none
  geo := none
  priority := none
  recur_id := none
  url := none

/-- Model of `struct Calendar` (source declaration order). -/
structure Calendar where
  name : Option String
  prodid : String
  version : String
  calscale : Option String
  method : Option String
  x_wr_calname : Option String
  x_wr_timezone : Option String
  events : List Event
deriving DecidableEq

/-- Model of the builder state of `parse_cal` (its local `mut` bindings
`prodid`, `version`, `calscale`, `method`, `name`, `x_wr_calname`,
`x_wr_timezone`, `events`). -/
structure CalendarBuilder where
  prodid : Option String
  version : Option String
  calscale : Option String
  method : Option String
  name : Option String
  x_wr_calname : Option String
  x_wr_timezone : Option String
  events : List Event
deriving DecidableEq

/-- Initial builder state: every local of `parse_cal` starts at
`None` / `vec![]`. -/
def CalendarBuilder.empty : CalendarBuilder where
  prodid := none
  version := none
  calscale := none
  method := none
  name := none
  x_wr_calname := none
  x_wr_timezone := none
  events := []

/-! ### String helpers (Rust `str` operations, by structural recursion) -/

/-- Auxiliary for `splitOnce`: scan for the first `':'`, accumulating the
prefix in reverse. -/
def splitOnceAux : List Char → List Char → Option (String × String)
  | [], _ => none
  | c :: cs, acc =>
      if c = ':' then some (String.mk acc.reverse, String.mk cs)
      else splitOnceAux cs (c :: acc)

/-- Model of Rust `str::split_once(':')`: the pieces before and after the
first colon, or `none` when the string has no colon. -/
def splitOnce (s : String) : Option (String × String) :=
  splitOnceAux s.data []

/-- Auxiliary for `splitSemis`. -/
def splitSemisAux : List Char → List Char → List String
  | [], acc => [String.mk acc.reverse]
  | c :: cs, acc =>
      if c = ';' then String.mk acc.reverse :: splitSemisAux cs []
      else splitSemisAux cs (c :: acc)

/-- Model of Rust `str::split(';')` collected in order; like the Rust
iterator it always yields at least one (possibly empty) piece. -/
def splitSemis (s : String) : List String :=
  splitSemisAux s.data []

/-- Prefix test on character lists. -/
def listIsPrefixOf : List Char → List Char → Bool
  | [], _ => true
  | _ :: _, [] => false
  | p :: ps, c :: cs => p = c && listIsPrefixOf ps cs

/-- Model of Rust `str::starts_with(pre)`. -/
def strStartsWith (s pre : String) : Bool :=
  listIsPrefixOf pre.data s.data

/-- Model of Rust byte slicing `&s[n..]` for the ASCII strings this crate
slices (on ASCII, byte indices and character indices agree). -/
def strDrop (s : String) (n : Nat) : String :=
  String.mk (s.data.drop n)

/-- Character count; equals Rust `str::len` on the ASCII strings the
parser slices. -/
def strLen (s : String) : Nat := s.data.length

/-- Model of `buf.pop()` after `read_line`: remove the final character of
the line, whatever it is.  On a "...\r\n" line this leaves the '\r' in
place, and on an unterminated final line it removes a content character. -/
def chop (s : String) : String :=
  String.mk s.data.dropLast

/-- Suffix test, used only to state facts about the serializer output. -/
def strEndsWith (s suf : String) : Bool :=
  listIsPrefixOf suf.data.reverse s.data.reverse

/-- Auxiliary for `linesOf`: split after each '\n', keeping the '\n' on its
line; a final unterminated segment is kept as-is. -/
def linesOfAux : List Char → List Char → List String
  | [], acc => if acc.isEmpty then [] else [String.mk acc.reverse]
  | c :: cs, acc =>
      if c = '\n' then String.mk (c :: acc).reverse :: linesOfAux cs []
      else linesOfAux cs (c :: acc)

/-- Model of repeated `Cursor::read_line`: the sequence of strings the
successive `read_line` calls append (each includes its '\n' terminator if
one is present in the input; `read_line` returning `0` corresponds to the
end of this list). -/
def linesOf (s : String) : List String :=
  linesOfAux s.data []

/-! ### DateTime converter -/

/-- Days of a month under proleptic Gregorian rules (chrono's calendar). -/
def daysInMonth (y m : Nat) : Nat :=
  if m = 2 then
    if y % 4 = 0 ∧ (y % 100 ≠ 0 ∨ y % 400 = 0) then 29 else 28
  else if m = 4 ∨ m = 6 ∨ m = 9 ∨ m = 11 then 30
  else 31

/-- Take up to `max` leading ASCII digits (greedy), as chrono's
`scan::number(s, 1, max)` does. -/
def takeDigits : Nat → List Char → (List Char × List Char)
  | 0, cs => ([], cs)
  | _ + 1, [] => ([], [])
  | n + 1, c :: cs =>
      if c.isDigit then
        let (d, r) := takeDigits n cs
        (c :: d, r)
      else ([], c :: cs)

/-- Numeric value of a digit list. -/
def digitsToNat (ds : List Char) : Nat :=
  ds.foldl (fun a c => a * 10 + (c.toNat - 48)) 0

/-- One numeric field of chrono's parser: leading whitespace is skipped,
then 1 to `maxD` digits are consumed greedily; no digit is a parse error.
(The sign handling chrono has for `%Y` and the leap-second value 60 for
`%S` are not reachable from the claims and are not modelled.) -/
def scanNum (maxD : Nat) (cs : List Char) : Option (Nat × List Char) :=
  let cs := cs.dropWhile (·.isWhitespace)
  match takeDigits maxD cs with
  | ([], _) => none
  | (ds, r) => some (digitsToNat ds, r)

/-- Model of `convert_datetime(value, "%Y%m%dT%H%M%S")` (the only format
the parser ever passes; `Event::set_dt_start` passes the same format).
chrono consumes `%Y` (at most 4 digits), `%m`, `%d`, the literal 'T',
`%H`, `%M`, `%S`, then REJECTS any trailing input (`ParseError(TooLong)`)
-- in particular a trailing 'Z' makes the parse fail -- and finally
validates the civil fields.  `none` models `Err`. -/
def convert_datetime (value : String) : Option UtcInstant := do
  let cs := value.data
  let (y, cs) ← scanNum 4 cs
  let (mo, cs) ← scanNum 2 cs
  let (d, cs) ← scanNum 2 cs
  let cs ← match cs with
    | 'T' :: r => some r
    | _ => none
  let (h, cs) ← scanNum 2 cs
  let (mi, cs) ← scanNum 2 cs
  let (s, cs) ← scanNum 2 cs
  if cs.isEmpty then
    if 1 ≤ mo ∧ mo ≤ 12 ∧ 1 ≤ d ∧ d ≤ daysInMonth y mo ∧
        h ≤ 23 ∧ mi ≤ 59 ∧ s ≤ 59 then
      some ⟨y, mo, d, h, mi, s⟩
    else none
  else none

/-- Model of `Event::set_dt_start`: panics (`Except.error` with the panic
message) when `dtstart` is already set, otherwise delegates
`format!("{val}T000000Z")` to `convert_datetime` with format
"%Y%m%dT%H%M%S" and propagates its error (the trailing 'Z' it itself
appends makes that parse fail for every `val`).  This helper is defined in
the source but never called by `parse_event`. -/
def set_dt_start (ev : Event) (val : String) : Except String Event :=
  if ev.dtstart.isSome then
    .error "Dtstart may not be specified more than once"
  else
    match convert_datetime (val ++ "T000000Z") with
    | some t => .ok { ev with dtstart := some t }
    | none => .error "invalid datetime"

/-! ### Timeline (for `is_all_day`) -/

/-- Days from the Unix epoch of a civil date (Howard Hinnant's
`days_from_civil`); chrono's internal datetime representation induces the
same timeline for valid dates. -/
def toDays (y m d : Nat) : Int :=
  let yy : Int := if m ≤ 2 then (y : Int) - 1 else (y : Int)
  let era : Int := (if 0 ≤ yy then yy else yy - 399).tdiv 400
  let yoe : Int := yy - era * 400
  let mp : Int := ((m : Int) + 9).emod 12
  let doy : Int := (153 * mp + 2).tdiv 5 + (d : Int) - 1
  let doe : Int := yoe * 365 + yoe.tdiv 4 - yoe.tdiv 100 + doy
  era * 146097 + doe - 719468

/-- Seconds from the Unix epoch: the timeline on which chrono's
`signed_duration_since` measures whole-second instants. -/
def toSecs (t : UtcInstant) : Int :=
  toDays t.year t.month t.day * 86400 +
    (t.hour : Int) * 3600 + (t.minute : Int) * 60 + (t.second : Int)

/-- Model of `end.signed_duration_since(start)` in whole seconds. -/
def signed_duration_since (e s : UtcInstant) : Int :=
  toSecs e - toSecs s

/-- Model of chrono `Duration::num_hours` on a whole-second duration:
Rust integer division truncates toward zero. -/
def num_hours (secs : Int) : Int :=
  secs.tdiv 3600

/-- Model of `Event::is_all_day`:
`dtstart.zip(dtend).map(|(s, e)| e.signed_duration_since(s).num_hours() >= 24)`. -/
def Event.is_all_day (ev : Event) : Option Bool :=
  match ev.dtstart, ev.dtend with
  | some s, some e => some (decide (24 ≤ num_hours (signed_duration_since e s)))
  | _, _ => none

/-! ### Rust `u32::from_str` -/

/-- Model of `str::parse::<u32>()`: an optional leading '+', then at least
one ASCII digit and nothing else, with the value bounded by `u32::MAX`. -/
def parse_u32 (s : String) : Option Nat :=
  let cs := match s.data with
    | '+' :: r => r
    | r => r
  if cs.isEmpty then none
  else if cs.all (·.isDigit) then
    let n := digitsToNat cs
    if n ≤ 4294967295 then some n else none
  else none

/-! ### Property dispatch -/

/-- Model of `key.split(';').next().unwrap_or(key)` (line 289): the bare
key before any ';' parameter. -/
def bareKey (k : String) : String :=
  String.mk (k.data.takeWhile (· ≠ ';'))

/-- Model of the `RRULE` arm of `parse_event` (lines 330-360).  The first
';'-piece must start with "FREQ=" or the whole line is skipped.  The
source then decodes UNTIL from the WRONG string: it slices the already
stripped `freq` token at byte 6 (`&freq["UNTIL=".len()..]`), which panics
when `freq` is shorter than 6 bytes and otherwise hands a suffix of the
frequency token -- never the UNTIL value -- to `convert_datetime`. -/
def rruleStep (ev : Event) (v : String) : Except String Event :=
  let vals := splitSemis v
  let freq0 := vals.headD ""
  if strStartsWith freq0 "FREQ=" then
    let freq := strDrop freq0 5
    match vals[1]? with
    | none => .ok { ev with repeat_ := some ⟨freq, none⟩ }
    | some u =>
        if strStartsWith u "UNTIL=" then
          if strLen freq < 6 then
            .error "byte index 6 is out of bounds"
          else
            .ok { ev with repeat_ := some ⟨freq, convert_datetime (strDrop freq 6)⟩ }
        else
          .ok { ev with repeat_ := some ⟨freq, none⟩ }
  else
    .ok ev

/-- Model of the key dispatch of `parse_event` (lines 288-385) on one
`key:value` line.  The `;`-parameter suffix of the key is stripped first.
`Except.error` carries the panic message of the `SEQUENCE` unwrap or the
RRULE slice panic; every other arm cannot fail (datetime failures leave
the field unset). -/
def stepEvent (ev : Event) (key v : String) : Except String Event :=
  let k := bareKey key
  if k = "CLASS" then .ok { ev with class_ := some v }
  else if k = "GEO" then .ok { ev with geo := some v }
  else if k = "PRIORITY" then .ok { ev with priority := some v }
  else if k = "RECUR-ID" then .ok { ev with recur_id := some v }
  else if k = "URL" then .ok { ev with url := some v }
  else if k = "UID" then .ok { ev with uid := some v }
  else if k = "DESCRIPTION" then .ok { ev with description := some v }
  else if k = "LOCATION" then .ok { ev with location := some v }
  else if k = "SEQUENCE" then
    match parse_u32 v with
    | some n => .ok { ev with sequence := some n }
    | none => .error "called Result::unwrap on an Err value"
  else if k = "STATUS" then .ok { ev with status := some v }
  else if k = "SUMMARY" then .ok { ev with summary := some v }
  else if k = "TRANSP" then .ok { ev with transp := some v }
  else if k = "ORGANIZER" then .ok { ev with organizer := some v }
  else if k = "RRULE" then rruleStep ev v
  else if k = "DTSTART" then
    match convert_datetime v with
    | some t => .ok { ev with dtstart := some t }
    | none => .ok ev
  else if k = "DTEND" then
    match convert_datetime v with
    | some t => .ok { ev with dtend := some t }
    | none => .ok ev
  else if k = "DTSTAMP" then
    match convert_datetime v with
    | some t => .ok { ev with dtstamp := some t }
    | none => .ok ev
  else if k = "CREATED" then
    match convert_datetime v with
    | some t => .ok { ev with created := some t }
    | none => .ok ev
  else if k = "LAST-MODIFIED" then
    match convert_datetime v with
    | some t => .ok { ev with last_modified := some t }
    | none => .ok ev
  else .ok ev

/-- Model of the key dispatch of `parse_cal` (lines 231-263), except the
"BEGIN" arm, which changes mode and is handled by `runLines`.  The
`assert!(prodid.is_none())` and `assert!(version.is_none())` guards are
panics (`Except.error`); parameters of calendar keys are NOT stripped
here (the source matches the full key). -/
def stepCal (b : CalendarBuilder) (k v : String) : Except String CalendarBuilder :=
  if k = "NAME" then .ok { b with name := some v }
  else if k = "PRODID" then
    if b.prodid.isSome then .error "assertion failed: prodid.is_none()"
    else .ok { b with prodid := some v }
  else if k = "VERSION" then
    if b.version.isSome then .error "assertion failed: version.is_none()"
    else .ok { b with version := some v }
  else if k = "CALSCALE" then .ok { b with calscale := some v }
  else if k = "METHOD" then .ok { b with method := some v }
  else if k = "X-WR-CALNAME" then .ok { b with x_wr_calname := some v }
  else if k = "X-WR-TIMEZONE" then .ok { b with x_wr_timezone := some v }
  else .ok b

/-- Model of the `END:VCALENDAR` arm (lines 212-224): the calendar is
built with `prodid.expect("a calendar needs a prodid")` and
`version.expect("a calendar needs a version")` -- a panic when either is
missing -- and any further input is ignored. -/
def finishCal (b : CalendarBuilder) : Except PErr Calendar :=
  match b.prodid, b.version with
  | some p, some ver =>
      .ok ⟨b.name, p, ver, b.calscale, b.method, b.x_wr_calname,
        b.x_wr_timezone, b.events⟩
  | none, _ => .error (.panicked "a calendar needs a prodid")
  | some _, none => .error (.panicked "a calendar needs a version")

/-- Model of the interleaved loops of `parse_cal` (lines 203-264) and
`parse_event` (lines 270-386) as one step function on the remaining line
list.  `cur = none`: control is in `parse_cal`'s loop; `cur = some ev`:
control is inside `parse_event` with accumulator `ev`.  Each iteration:
`read_line` (empty list = `read_line() == 0`, the UnexpectedEof error),
`buf.pop()` (`chop`), the `END:` comparison, `split_once(':')` (a line
without ':' is logged and skipped), then the key dispatch. -/
def runLines : CalendarBuilder → Option Event → List String → Except PErr Calendar
  | _, _, [] => .error .eof
  | b, none, l :: rest =>
      let c := chop l
      if c = "END:VCALENDAR" then finishCal b
      else
        match splitOnce c with
        | none => runLines b none rest
        | some (k, v) =>
            if k = "BEGIN" then
              if v = "VEVENT" then runLines b (some Event.empty) rest
              else runLines b none rest
            else
              match stepCal b k v with
              | .ok b' => runLines b' none rest
              | .error m => .error (.panicked m)
  | b, some ev, l :: rest =>
      let c := chop l
      if c = "END:VEVENT" then
        runLines { b with events := b.events ++ [ev] } none rest
      else
        match splitOnce c with
        | none => runLines b (some ev) rest
        | some (k, v) =>
            match stepEvent ev k v with
            | .ok ev' => runLines b (some ev') rest
            | .error m => .error (.panicked m)

/-- Model of `parse_cal` (lines 185-265): the first `read_line` result
must be EXACTLY "BEGIN:VCALENDAR\r\n" -- `assert_eq!` panics otherwise
(also on empty input, where `read_line` returns 0 and `buf` stays "") --
then the main loop runs on the remaining lines. -/
def parse_cal (raw : String) : Except PErr Calendar :=
  match linesOf raw with
  | [] => .error (.panicked "assertion failed: BEGIN:VCALENDAR expected")
  | first :: rest =>
      if first = "BEGIN:VCALENDAR\r\n" then
        runLines CalendarBuilder.empty none rest
      else .error (.panicked "assertion failed: BEGIN:VCALENDAR expected")

/-- Model of `Calendar::new_from_data`. -/
def new_from_data (data : String) : Except PErr Calendar :=
  parse_cal data

/-! ### Serializer -/

/-- Decimal digits of `n` left-padded with '0' to `width`; chrono's
zero-padded numeric formatting for the year/month/day/... fields in range
(years above 9999, which the parser cannot produce, are not modelled). -/
def padNum (width n : Nat) : String :=
  let s := toString n
  String.mk (List.replicate (width - s.data.length) '0') ++ s

/-- Model of `format("%Y%m%dT%H%M%SZ")` on a `DateTime<Utc>`: the 'Z' in
that format string is a literal character appended to the output. -/
def fmtInstant (t : UtcInstant) : String :=
  padNum 4 t.year ++ padNum 2 t.month ++ padNum 2 t.day ++ "T" ++
    padNum 2 t.hour ++ padNum 2 t.minute ++ padNum 2 t.second ++ "Z"

/-- Model of the `write!` sequence of `Calendar::export_to` for one event
(lines 475-512): twelve fields in fixed order, each read with
`.unwrap()` -- a panic (`Except.error`) when the field is `None`. -/
def exportEvent (e : Event) : Except String String :=
  match e.dtstart, e.dtend, e.dtstamp, e.uid, e.created, e.description,
      e.last_modified, e.location, e.sequence, e.status, e.summary,
      e.transp with
  | some dtstart, some dtend, some dtstamp, some uid, some created,
      some description, some last_modified, some location, some seqn,
      some status, some summary, some transp =>
      .ok ("BEGIN:VEVENT\r\n" ++
        "DTSTART:" ++ fmtInstant dtstart ++ "\r\n" ++
        "DTEND:" ++ fmtInstant dtend ++ "\r\n" ++
        "DTSTAMP:" ++ fmtInstant dtstamp ++ "\r\n" ++
        "UID:" ++ uid ++ "\r\n" ++
        "CREATED:" ++ fmtInstant created ++ "\r\n" ++
        "DESCRIPTION:" ++ description ++ "\r\n" ++
        "LAST-MODIFIED:" ++ fmtInstant last_modified ++ "\r\n" ++
        "LOCATION:" ++ location ++ "\r\n" ++
        "SEQUENCE:" ++ toString seqn ++ "\r\n" ++
        "STATUS:" ++ status ++ "\r\n" ++
        "SUMMARY:" ++ summary ++ "\r\n" ++
        "TRANSP:" ++ transp ++ "\r\n" ++
        "END:VEVENT\r\n")
  | _, _, _, _, _, _, _, _, _, _, _, _ =>
      .error "called Option::unwrap on a None value"

/-- Event blocks of `export_to` in sequence order. -/
def exportEvents : List Event → Except String String
  | [] => .ok ""
  | e :: r =>
      match exportEvent e, exportEvents r with
      | .ok s, .ok t => .ok (s ++ t)
      | .error m, _ => .error m
      | .ok _, .error m => .error m

/-- Model of `Calendar::export_to` (lines 458-516) writing to an
always-succeeding sink: the header lines (CALSCALE emitted BETWEEN PRODID
and VERSION, as in the source), the event blocks, and a final
"END:VCALENDAR" written WITHOUT a line terminator (line 514).
`Except.error` is the `unwrap` panic on a missing event field. -/
def export_to (c : Calendar) : Except String String :=
  let hdr :=
    "BEGIN:VCALENDAR\r\n" ++
    "PRODID:" ++ c.prodid ++ "\r\n" ++
    (match c.calscale with
      | some scale => "CALSCALE:" ++ scale ++ "\r\n"
      | none => "") ++
    "VERSION:" ++ c.version ++ "\r\n" ++
    (match c.method with
      | some m => "METHOD:" ++ m ++ "\r\n"
      | none => "") ++
    (match c.x_wr_calname with
      | some v => "X-WR-CALNAME:" ++ v ++ "\r\n"
      | none => "") ++
    (match c.x_wr_timezone with
      | some tz => "X-WR-TIMEZONE:" ++ tz ++ "\r\n"
      | none => "")
  match exportEvents c.events with
  | .ok body => .ok (hdr ++ body ++ "END:VCALENDAR")
  | .error m => .error m

/-! ### Specification-side definitions

The definitions below are NOT translations of source functions: they
restate, in the spec's own vocabulary, what some claims assert about the
parser and serializer, so that the claims can be phrased as a
correspondence between the source model above and these definitions. -/

/-- A line the tokenizer can split into `key:value` (its chopped content
has a ':'); the spec calls a line without one a malformed line. -/
def goodLine (l : String) : Bool :=
  (splitOnce (chop l)).isSome

/-- Scanner for the spec's well-formed `BEGIN:VEVENT`/`END:VEVENT` pairs:
walking the line list in order (stopping at `END:VCALENDAR`), it collects,
for each pair, the chopped contents of the lines between the markers.
`some acc` means a block is open with contents `acc` so far; a block still
open at the end of input is not a well-formed pair. -/
def blocksAux : Option (List String) → List String → List (List String)
  | none, [] => []
  | some _, [] => []
  | none, l :: r =>
      let c := chop l
      if c = "END:VCALENDAR" then []
      else if splitOnce c = some ("BEGIN", "VEVENT") then blocksAux (some []) r
      else blocksAux none r
  | some acc, l :: r =>
      let c := chop l
      if c = "END:VEVENT" then acc :: blocksAux none r
      else blocksAux (some (acc ++ [c])) r

/-- The contents of the well-formed event blocks of a line list, in the
order of their `BEGIN:VEVENT` markers. -/
def eventBlocks (ls : List String) : List (List String) :=
  blocksAux none ls

/-- Field-by-field accumulation of one event from the chopped contents of
its block: malformed lines are skipped, the rest go through the event
dispatcher; an error is a dispatcher panic. -/
def buildEvFold (ev : Event) : List String → Except String Event
  | [] => .ok ev
  | c :: r =>
      match splitOnce c with
      | none => buildEvFold ev r
      | some (k, v) =>
          match stepEvent ev k v with
          | .ok ev' => buildEvFold ev' r
          | .error m => .error m

/-- The event described by one block's contents, starting from the empty
accumulator. -/
def buildEvent (cs : List String) : Except String Event :=
  buildEvFold Event.empty cs

/-- The events of all blocks, in block order. -/
def buildAll : List (List String) → Except String (List Event)
  | [] => .ok []
  | blk :: r =>
      match buildEvent blk, buildAll r with
      | .ok e, .ok es => .ok (e :: es)
      | .error m, _ => .error m
      | .ok _, .error m => .error m

/-- The serialization precondition of the spec: every field of the fixed
emission list is present on the event. -/
def fieldsPresent (e : Event) : Prop :=
  e.dtstart.isSome = true ∧ e.dtend.isSome = true ∧ e.dtstamp.isSome = true ∧
  e.uid.isSome = true ∧ e.created.isSome = true ∧ e.description.isSome = true ∧
  e.last_modified.isSome = true ∧ e.location.isSome = true ∧
  e.sequence.isSome = true ∧ e.status.isSome = true ∧
  e.summary.isSome = true ∧ e.transp.isSome = true

instance (e : Event) : Decidable (fieldsPresent e) := by
  unfold fieldsPresent; infer_instance

/-- One optional emission line: present fields contribute `KEY:value`,
absent ones contribute nothing. -/
def optLine (k : String) : Option String → List String
  | some v => [k ++ v]
  | none => []

/-- The emission list of one event, in the order the spec fixes:
DTSTART, DTEND, DTSTAMP, UID, CREATED, DESCRIPTION, LAST-MODIFIED,
LOCATION, SEQUENCE, STATUS, SUMMARY, TRANSP, between the two markers. -/
def eventSpecLines (e : Event) : List String :=
  ["BEGIN:VEVENT"] ++
  optLine "DTSTART:" (e.dtstart.map fmtInstant) ++
  optLine "DTEND:" (e.dtend.map fmtInstant) ++
  optLine "DTSTAMP:" (e.dtstamp.map fmtInstant) ++
  optLine "UID:" e.uid ++
  optLine "CREATED:" (e.created.map fmtInstant) ++
  optLine "DESCRIPTION:" e.description ++
  optLine "LAST-MODIFIED:" (e.last_modified.map fmtInstant) ++
  optLine "LOCATION:" e.location ++
  optLine "SEQUENCE:" (e.sequence.map toString) ++
  optLine "STATUS:" e.status ++
  optLine "SUMMARY:" e.summary ++
  optLine "TRANSP:" e.transp ++
  ["END:VEVENT"]

/-- The full emission list of a calendar in the order the spec fixes:
BEGIN:VCALENDAR, PRODID, optional CALSCALE, VERSION, optional METHOD,
optional X-WR-CALNAME, optional X-WR-TIMEZONE, the events in sequence
order, and the terminating END:VCALENDAR is stated separately because the
source emits it without a line terminator. -/
def calSpecLines (c : Calendar) : List String :=
  ["BEGIN:VCALENDAR", "PRODID:" ++ c.prodid] ++
  optLine "CALSCALE:" c.calscale ++
  ["VERSION:" ++ c.version] ++
  optLine "METHOD:" c.method ++
  optLine "X-WR-CALNAME:" c.x_wr_calname ++
  optLine "X-WR-TIMEZONE:" c.x_wr_timezone ++
  (c.events.map eventSpecLines).flatten

/-- Terminate every given line with carriage-return + line-feed and
concatenate. -/
def crlfConcat : List String → String
  | [] => ""
  | l :: r => l ++ "\r\n" ++ crlfConcat r

/-! ### Concrete test vectors -/

/-- An instant used across the concrete calendars: 2019-05-22T23:27:01Z. -/
def t2019 : UtcInstant := ⟨2019, 5, 22, 23, 27, 1⟩

/-- An event with every field of the fixed emission list present. -/
def evFull : Event :=
  { Event.empty with
      dtstart := some t2019
      dtend := some ⟨2019, 5, 23, 23, 27, 1⟩
      dtstamp := some t2019
      uid := some "u1"
      created := some t2019
      description := some "d"
      last_modified := some t2019
      location := some "l"
      sequence := some 0
      status := some "CONFIRMED"
      summary := some "s"
      transp := some "OPAQUE" }

/-- A calendar whose single event has every emission-list field present. -/
def calFull : Calendar :=
  ⟨none, "-//T//", "2.0", none, none, none, none, [evFull]⟩

/-- The exact text `export_to` produces for `calFull`: CRLF-terminated
lines, but the final END:VCALENDAR carries no terminator. -/
def outFull : String :=
  "BEGIN:VCALENDAR\r\nPRODID:-//T//\r\nVERSION:2.0\r\nBEGIN:VEVENT\r\nDTSTART:20190522T232701Z\r\nDTEND:20190523T232701Z\r\nDTSTAMP:20190522T232701Z\r\nUID:u1\r\nCREATED:20190522T232701Z\r\nDESCRIPTION:d\r\nLAST-MODIFIED:20190522T232701Z\r\nLOCATION:l\r\nSEQUENCE:0\r\nSTATUS:CONFIRMED\r\nSUMMARY:s\r\nTRANSP:OPAQUE\r\nEND:VEVENT\r\nEND:VCALENDAR"

/-- The end-to-end input of the spec's testable-properties section (claim
C2), with CRLF line terminators throughout. -/
def c2input : String :=
  "BEGIN:VCALENDAR\r\nPRODID:-//T//\r\nVERSION:2.0\r\nBEGIN:VEVENT\r\nUID:1\r\nDTSTAMP:20190522T232701Z\r\nSUMMARY:Test\r\nEND:VEVENT\r\nEND:VCALENDAR\r\n"

/-- A calendar input whose event carries `DTSTART;VALUE=DATE:20230101`
(LF-terminated body lines, which the parser does strip correctly). -/
def c3input : String :=
  "BEGIN:VCALENDAR\r\nPRODID:p\nVERSION:2.0\nBEGIN:VEVENT\nUID:1\nDTSTART;VALUE=DATE:20230101\nEND:VEVENT\nEND:VCALENDAR\n"

/-- The calendar `c3input` actually parses to: the event's dtstart is
absent. -/
def c3cal : Calendar :=
  ⟨none, "p", "2.0", none, none, none, none,
    [{ Event.empty with uid := some "1" }]⟩

/-- RRULE with a decodable UNTIL date-time. -/
def c4input : String :=
  "BEGIN:VCALENDAR\r\nPRODID:p\nVERSION:2\nBEGIN:VEVENT\nRRULE:FREQ=MONTHLY;UNTIL=20230101T000000\nEND:VEVENT\nEND:VCALENDAR\n"

/-- The calendar `c4input` actually parses to: freq is kept, until is
lost. -/
def c4cal : Calendar :=
  ⟨none, "p", "2", none, none, none, none,
    [{ Event.empty with repeat_ := some ⟨"MONTHLY", none⟩ }]⟩

/-- RRULE whose FREQ token is shorter than 6 bytes while an UNTIL
component follows: the source's slice of the freq token panics. -/
def c4panicInput : String :=
  "BEGIN:VCALENDAR\r\nPRODID:p\nVERSION:2\nBEGIN:VEVENT\nRRULE:FREQ=DAILY;UNTIL=20230101T000000\nEND:VEVENT\nEND:VCALENDAR\n"

/-- The spec's own RRULE test vector. -/
def c4weeklyInput : String :=
  "BEGIN:VCALENDAR\r\nPRODID:p\nVERSION:2\nBEGIN:VEVENT\nRRULE:FREQ=WEEKLY\nEND:VEVENT\nEND:VCALENDAR\n"

/-- The calendar `c4weeklyInput` parses to. -/
def c4weeklyCal : Calendar :=
  ⟨none, "p", "2", none, none, none, none,
    [{ Event.empty with repeat_ := some ⟨"WEEKLY", none⟩ }]⟩

/-- RRULE whose first component is not `FREQ=`: discarded entirely. -/
def c4nofreqInput : String :=
  "BEGIN:VCALENDAR\r\nPRODID:p\nVERSION:2\nBEGIN:VEVENT\nRRULE:UNTIL=20230101T000000;FREQ=WEEKLY\nEND:VEVENT\nEND:VCALENDAR\n"

/-- The calendar `c4nofreqInput` parses to: no repeat at all. -/
def c4nofreqCal : Calendar :=
  ⟨none, "p", "2", none, none, none, none, [Event.empty]⟩

/-- An input whose first record is not `BEGIN:VCALENDAR`. -/
def c5badFirst : String := "X:Y\r\nEND:VCALENDAR\r\n"

/-- A well-formed SEQUENCE line. -/
def c6okInput : String :=
  "BEGIN:VCALENDAR\r\nPRODID:p\nVERSION:2\nBEGIN:VEVENT\nSEQUENCE:3\nEND:VEVENT\nEND:VCALENDAR\n"

/-- The calendar `c6okInput` parses to. -/
def c6okCal : Calendar :=
  ⟨none, "p", "2", none, none, none, none,
    [{ Event.empty with sequence := some 3 }]⟩

/-- A SEQUENCE line whose value is not a number. -/
def c6badInput : String :=
  "BEGIN:VCALENDAR\r\nPRODID:p\nVERSION:2\nBEGIN:VEVENT\nSEQUENCE:abc\nEND:VEVENT\nEND:VCALENDAR\n"

/-- Line list (LF-terminated, as the parser requires for the body) used
to instantiate the claim-C7 theorem at a concrete input. -/
def c7lines : List String :=
  ["PRODID:p\n", "VERSION:2\n", "BEGIN:VEVENT\n", "NOCOLON\n", "UID:u\n",
    "END:VEVENT\n", "JUNK\n", "END:VCALENDAR\n"]

/-- The calendar `c7lines` runs to from the empty builder. -/
def c7cal : Calendar :=
  ⟨none, "p", "2", none, none, none, none,
    [{ Event.empty with uid := some "u" }]⟩

/-- A calendar exercising every optional header field for the serializer
claims. -/
def c8cal : Calendar :=
  ⟨none, "-//T//", "2.0", some "GREGORIAN", some "PUBLISH", some "cn",
    some "tz", [evFull]⟩

/-- An events-free calendar: the smallest counterexample to the claim
that the final END:VCALENDAR line is CRLF-terminated. -/
def c8small : Calendar :=
  ⟨none, "p", "2.0", none, none, none, none, []⟩

/-- An event spanning exactly 24 hours, for the all-day check. -/
def ev10 : Event :=
  { Event.empty with
      dtstart := some ⟨2023, 1, 1, 0, 0, 0⟩
      dtend := some ⟨2023, 1, 2, 0, 0, 0⟩ }

end WebIcal

deriving instance DecidableEq for Except

namespace WebIcal

/-! ## Claim theorems -/

/-- C1 (code_bug evidence): serialize-then-parse does NOT reproduce the
calendar.  `export_to` of a calendar whose single event has every field of
the fixed emission list present yields `outFull`, and `new_from_data`
applied to that very text returns the UnexpectedEof error instead of
`Ok`: the parser strips only the '\n' of each CRLF line terminator, so the
retained '\r' keeps `BEGIN:VEVENT`, `END:VEVENT` and `END:VCALENDAR` from
ever matching, and the final `END:VCALENDAR` line is emitted without any
terminator.  No round-tripped field values exist at all. -/
theorem roundtrip_fails_on_full_calendar :
    export_to calFull = Except.ok outFull ∧
    new_from_data outFull = Except.error PErr.eof := by
  constructor
  · decide
  · decide

/-- C2 (code_bug evidence): the spec's end-to-end input parses to the
UnexpectedEof error rather than the described calendar, and the date-time
converter REJECTS the trailing 'Z' (chrono fails on trailing input when
the format is "%Y%m%dT%H%M%S"), accepting only the bare
`YYYYMMDDTHHMMSS` form. -/
theorem end_to_end_input_errors :
    new_from_data c2input = Except.error PErr.eof ∧
    convert_datetime "20190522T232701Z" = none ∧
    convert_datetime "20190522T232701" = some t2019 := by
  refine ⟨by decide, by decide, by decide⟩

/-- C3 (code_bug evidence): `DTSTART;VALUE=DATE:20230101` does NOT set
dtstart.  The dispatcher strips the `;VALUE=DATE` parameter and feeds the
bare date to the full date-time parse, which fails, leaving dtstart
absent (`c3cal`'s event has `dtstart = none`); and the vestigial
`Event::set_dt_start` date-only helper is itself broken (it appends
"T000000Z" whose 'Z' the converter rejects), failing on every input. -/
theorem value_date_leaves_dtstart_unset :
    new_from_data c3input = Except.ok c3cal ∧
    (c3cal.events.headD Event.empty).dtstart = none ∧
    convert_datetime "20230101" = none ∧
    set_dt_start Event.empty "20230101" = Except.error "invalid datetime" := by
  refine ⟨by decide, by decide, by decide, by decide⟩

/-- C4 (code_bug evidence): `RRULE:FREQ=MONTHLY;UNTIL=20230101T000000`
keeps freq but LOSES until even though the UNTIL value is decodable
(third conjunct), because the source slices the frequency token instead
of the UNTIL component; when the frequency token is shorter than 6 bytes
(`FREQ=DAILY`) that slice panics outright.  The two spec-conformant
sub-cases -- `FREQ=WEEKLY` alone, and a first component that is not
`FREQ=` discarding the whole rule -- behave as claimed. -/
theorem rrule_until_lost :
    new_from_data c4input = Except.ok c4cal ∧
    (c4cal.events.headD Event.empty).repeat_ = some ⟨"MONTHLY", none⟩ ∧
    convert_datetime "20230101T000000" = some ⟨2023, 1, 1, 0, 0, 0⟩ ∧
    new_from_data c4panicInput =
      Except.error (PErr.panicked "byte index 6 is out of bounds") ∧
    new_from_data c4weeklyInput = Except.ok c4weeklyCal ∧
    new_from_data c4nofreqInput = Except.ok c4nofreqCal := by
  refine ⟨by decide, by decide, by decide, by decide, by decide, by decide⟩

/-- C5 (code_bug evidence): a first record that is not exactly
`BEGIN:VCALENDAR` makes the parser PANIC (`assert_eq!`), not return an
`Err`; running out of input before `END:VCALENDAR` or before `END:VEVENT`
does return the UnexpectedEof error as claimed. -/
theorem bad_first_record_panics :
    new_from_data c5badFirst =
      Except.error (PErr.panicked "assertion failed: BEGIN:VCALENDAR expected") ∧
    new_from_data "BEGIN:VCALENDAR\r\n" = Except.error PErr.eof ∧
    new_from_data "BEGIN:VCALENDAR\r\nBEGIN:VEVENT\n" = Except.error PErr.eof := by
  refine ⟨by decide, by decide, by decide⟩

/-- C6 (code_bug evidence): `SEQUENCE:3` does set the event's sequence to
3, but a non-numeric SEQUENCE value makes the parser PANIC through
`parse::<u32>().unwrap()` instead of surfacing a parse error result. -/
theorem sequence_nonnumeric_panics :
    new_from_data c6okInput = Except.ok c6okCal ∧
    (c6okCal.events.headD Event.empty).sequence = some 3 ∧
    new_from_data c6badInput =
      Except.error (PErr.panicked "called Result::unwrap on an Err value") := by
  refine ⟨by decide, by decide, by decide⟩

end WebIcal

namespace WebIcal

/-! ## Claim C10: is_all_day -/

/-- Truncating division by 3600 reaches 24 exactly on durations of at
least 86400 seconds (Rust integer division truncates toward zero, so
negative durations land strictly below 24). -/
theorem tdiv_3600_ge_24_iff (d : Int) : 24 ≤ d.tdiv 3600 ↔ 86400 ≤ d := by
  cases d with
  | ofNat n =>
      show 24 ≤ Int.tdiv (Int.ofNat n) (Int.ofNat 3600) ↔ _
      rw [Int.tdiv]
      simp only [Int.ofNat_eq_coe]
      omega
  | negSucc m =>
      show 24 ≤ Int.tdiv (Int.negSucc m) (Int.ofNat 3600) ↔ _
      rw [Int.tdiv]
      simp only [Int.ofNat_eq_coe, Int.negSucc_eq]
      omega

/-- C10: `is_all_day` is `none` exactly when dtstart or dtend is absent;
with both present it is `some true` exactly when the signed duration from
dtstart to dtend is at least 24 hours (86400 seconds), and `some false`
otherwise -- including when dtend precedes dtstart, where the duration is
negative. -/
theorem is_all_day_characterization (ev : Event) :
    (ev.is_all_day = none ↔ (ev.dtstart = none ∨ ev.dtend = none)) ∧
    (∀ s e, ev.dtstart = some s → ev.dtend = some e →
      (ev.is_all_day = some true ↔ 86400 ≤ signed_duration_since e s) ∧
      (ev.is_all_day = some false ↔ signed_duration_since e s < 86400)) := by
  cases hs : ev.dtstart with
  | none =>
      refine ⟨by simp [Event.is_all_day, hs], ?_⟩
      intro s e hs' _
      exact absurd hs' (by simp)
  | some s0 =>
      cases he : ev.dtend with
      | none =>
          refine ⟨by simp [Event.is_all_day, hs, he], ?_⟩
          intro s e _ he'
          exact absurd he' (by simp)
      | some e0 =>
          refine ⟨by simp [Event.is_all_day, hs, he], ?_⟩
          intro s e hs' he'
          obtain rfl : s0 = s := by injection hs'
          obtain rfl : e0 = e := by injection he'
          constructor
          · simp [Event.is_all_day, hs, he, num_hours, decide_eq_true_eq,
              tdiv_3600_ge_24_iff]
          · simp [Event.is_all_day, hs, he, num_hours,
              decide_eq_false_iff_not, tdiv_3600_ge_24_iff, not_le]

/-- Witness for C10 at a concrete event spanning exactly 24 hours. -/
theorem is_all_day_characterization_witness :
    ev10.is_all_day = some true :=
  ((is_all_day_characterization ev10).2 ⟨2023, 1, 1, 0, 0, 0⟩
    ⟨2023, 1, 2, 0, 0, 0⟩ rfl rfl).1.mpr (by decide)

end WebIcal

namespace WebIcal

/-! ## Claims C8 and C9: the serializer -/

/-- Splitting of the serializer's BEGIN:VCALENDAR write into line content
and terminator (definitional). -/
theorem litBeginCal : ("BEGIN:VCALENDAR\r\n" : String) = "BEGIN:VCALENDAR" ++ "\r\n" := rfl

/-- Splitting of the serializer's BEGIN:VEVENT write into line content and
terminator (definitional). -/
theorem litBeginEvent : ("BEGIN:VEVENT\r\n" : String) = "BEGIN:VEVENT" ++ "\r\n" := rfl

/-- Splitting of the serializer's END:VEVENT write into line content and
terminator (definitional). -/
theorem litEndEvent : ("END:VEVENT\r\n" : String) = "END:VEVENT" ++ "\r\n" := rfl

/-- crlfConcat distributes over list concatenation. -/
theorem crlfConcat_append (xs ys : List String) :
    crlfConcat (xs ++ ys) = crlfConcat xs ++ crlfConcat ys := by
  induction xs with
  | nil => rfl
  | cons x t ih =>
      rw [List.cons_append, crlfConcat, crlfConcat, ih]
      simp [String.append_assoc]

/-- With every emission-list field present, one event's block is exactly
its spec emission lines, each CRLF-terminated. -/
theorem exportEvent_spec (e : Event) (h : fieldsPresent e) :
    exportEvent e = .ok (crlfConcat (eventSpecLines e)) := by
  obtain ⟨h1, h2, h3, h4, h5, h6, h7, h8, h9, h10, h11, h12⟩ := h
  rw [Option.isSome_iff_exists] at h1 h2 h3 h4 h5 h6 h7 h8 h9 h10 h11 h12
  obtain ⟨a1, e1⟩ := h1
  obtain ⟨a2, e2⟩ := h2
  obtain ⟨a3, e3⟩ := h3
  obtain ⟨a4, e4⟩ := h4
  obtain ⟨a5, e5⟩ := h5
  obtain ⟨a6, e6⟩ := h6
  obtain ⟨a7, e7⟩ := h7
  obtain ⟨a8, e8⟩ := h8
  obtain ⟨a9, e9⟩ := h9
  obtain ⟨a10, e10⟩ := h10
  obtain ⟨a11, e11⟩ := h11
  obtain ⟨a12, e12⟩ := h12
  simp only [exportEvent, eventSpecLines, optLine, crlfConcat,
    e1, e2, e3, e4, e5, e6, e7, e8, e9, e10, e11, e12,
    Option.map_some, Option.map_some', List.cons_append, List.nil_append,
    List.singleton_append, litBeginEvent, litEndEvent,
    String.append_assoc, String.append_empty]

/-- The serializer's event section is the CRLF-terminated concatenation of
the events' spec emission lines, in sequence order. -/
theorem exportEvents_spec (evs : List Event) (h : ∀ e ∈ evs, fieldsPresent e) :
    exportEvents evs = .ok (crlfConcat ((evs.map eventSpecLines).flatten)) := by
  induction evs with
  | nil => rfl
  | cons e r ih =>
      have he := exportEvent_spec e (h e (by simp))
      have hr := ih (fun x hx => h x (by simp [hx]))
      simp only [exportEvents, he, hr, List.map_cons, List.flatten_cons,
        crlfConcat_append]

/-- C8 (amended): when every event of the calendar has the twelve
emission-list fields present, `export_to` emits exactly the spec's fixed
order -- BEGIN:VCALENDAR, PRODID, optional CALSCALE, VERSION, optional
METHOD, optional X-WR-CALNAME, optional X-WR-TIMEZONE, then each event's
fixed-order block -- with every one of those lines terminated by
carriage-return + line-feed, FOLLOWED by the final END:VCALENDAR emitted
WITHOUT any terminator (the source writes it with no "\r\n").  The
original claim, which asserts the final line is also CRLF-terminated, is
false (see the counterexample). -/
theorem export_emission_order (c : Calendar)
    (h : ∀ e ∈ c.events, fieldsPresent e) :
    export_to c = Except.ok (crlfConcat (calSpecLines c) ++ "END:VCALENDAR") := by
  obtain ⟨nm, prodid, ver, calscale, method, xwc, xwt, events⟩ := c
  have hb := exportEvents_spec events (by simpa using h)
  cases calscale <;> cases method <;> cases xwc <;> cases xwt <;>
    (simp only [export_to, hb, calSpecLines, optLine, crlfConcat,
      crlfConcat_append, List.cons_append, List.nil_append,
      List.singleton_append, List.append_assoc, litBeginCal,
      String.append_assoc, String.append_empty]
     try rfl)

/-- Witness for C8 (amended) at a calendar exercising every optional
header field. -/
theorem export_emission_order_witness :
    export_to c8cal =
      Except.ok (crlfConcat (calSpecLines c8cal) ++ "END:VCALENDAR") :=
  export_emission_order c8cal (by decide)

/-- C8 counterexample: the claim's CRLF clause fails on the final line.
`export_to` of a concrete calendar produces output that does NOT end with
carriage-return + line-feed -- its final END:VCALENDAR line has no
terminator at all. -/
theorem final_line_not_crlf_terminated :
    export_to c8small =
      Except.ok "BEGIN:VCALENDAR\r\nPRODID:p\r\nVERSION:2.0\r\nEND:VCALENDAR" ∧
    strEndsWith "BEGIN:VCALENDAR\r\nPRODID:p\r\nVERSION:2.0\r\nEND:VCALENDAR"
      "\r\n" = false := by
  refine ⟨by decide, by decide⟩

/-- C9: under the precondition that every event carries all twelve
emission-list fields, `export_to` reaches no unwrap of a `None` (no
panic) and returns `Ok` -- in the model, where every write to the sink
succeeds, the result is `Except.ok`. -/
theorem export_to_no_panic (c : Calendar)
    (h : ∀ e ∈ c.events, fieldsPresent e) :
    ∃ s, export_to c = Except.ok s := by
  have hb := exportEvents_spec c.events h
  cases hq : export_to c with
  | ok s => exact ⟨s, rfl⟩
  | error m =>
      unfold export_to at hq
      rw [hb] at hq
      simp at hq

/-- Witness for C9 at a calendar whose single event has every field
present. -/
theorem export_to_no_panic_witness :
    ∃ s, export_to calFull = Except.ok s :=
  export_to_no_panic calFull (by decide)

end WebIcal

namespace WebIcal

/-- A line content without a colon cannot be the END:VCALENDAR marker. -/
theorem splitOnce_none_ne_endcal {c : String} (h : splitOnce c = none) :
    c ≠ "END:VCALENDAR" := by
  intro he
  rw [he] at h
  exact absurd h (by decide)

/-- A line content without a colon cannot be the END:VEVENT marker. -/
theorem splitOnce_none_ne_endev {c : String} (h : splitOnce c = none) :
    c ≠ "END:VEVENT" := by
  intro he
  rw [he] at h
  exact absurd h (by decide)

/-- The parser skips a line whose chopped content has no colon: in both
modes the line is logged and the loop continues unchanged. -/
theorem runLines_skip (b : CalendarBuilder) (cur : Option Event) (l : String)
    (rest : List String) (h : splitOnce (chop l) = none) :
    runLines b cur (l :: rest) = runLines b cur rest := by
  cases cur with
  | none => simp [runLines, splitOnce_none_ne_endcal h, h]
  | some ev => simp [runLines, splitOnce_none_ne_endev h, h]

end WebIcal

namespace WebIcal

/-- Stepping over one line preserves any equality of continuations. -/
theorem runLines_cons_congr (l : String) (t1 t2 : List String)
    (H : ∀ b' cur', runLines b' cur' t1 = runLines b' cur' t2) :
    ∀ b cur, runLines b cur (l :: t1) = runLines b cur (l :: t2) := by
  intro b cur
  cases cur with
  | none =>
      by_cases hc : chop l = "END:VCALENDAR"
      · simp [runLines, hc]
      · cases hsp : splitOnce (chop l) with
        | none => simp [runLines, hc, hsp, H]
        | some kv =>
            obtain ⟨k, v⟩ := kv
            by_cases hk : k = "BEGIN"
            · by_cases hv : v = "VEVENT"
              · simp [runLines, hc, hsp, hk, hv, H]
              · simp [runLines, hc, hsp, hk, hv, H]
            · cases hst : stepCal b k v with
              | ok b' => simp [runLines, hc, hsp, hk, hst, H]
              | error m => simp [runLines, hc, hsp, hk, hst]
  | some ev =>
      by_cases hc : chop l = "END:VEVENT"
      · simp [runLines, hc, H]
      · cases hsp : splitOnce (chop l) with
        | none => simp [runLines, hc, hsp, H]
        | some kv =>
            obtain ⟨k, v⟩ := kv
            cases hst : stepEvent ev k v with
            | ok ev' => simp [runLines, hc, hsp, hst, H]
            | error m => simp [runLines, hc, hsp, hst]

/-- The parse outcome depends only on the lines the tokenizer can split:
dropping every malformed (colon-free) line, however many there are and
wherever they sit, leaves the result unchanged. -/
theorem runLines_filter : ∀ (ls : List String) (b : CalendarBuilder)
    (cur : Option Event),
    runLines b cur ls = runLines b cur (ls.filter goodLine) := by
  intro ls
  induction ls with
  | nil => intro b cur; rfl
  | cons l t ih =>
      intro b cur
      by_cases hg : goodLine l = true
      · rw [List.filter_cons_of_pos hg]
        exact runLines_cons_congr l t (t.filter goodLine)
          (fun b' cur' => ih b' cur') b cur
      · have hnone : splitOnce (chop l) = none := by
          rw [Bool.not_eq_true] at hg
          unfold goodLine at hg
          exact Option.not_isSome_iff_eq_none.mp (by simp [hg])
        rw [List.filter_cons_of_neg (by simpa using hg),
          runLines_skip b cur l t hnone]
        exact ih b cur

end WebIcal

namespace WebIcal

/-- Calendar-key dispatch never touches the accumulated event list. -/
theorem stepCal_events {b b' : CalendarBuilder} {k v : String}
    (h : stepCal b k v = .ok b') : b'.events = b.events := by
  unfold stepCal at h
  split_ifs at h <;> (injection h with h; subst h; rfl)

end WebIcal

namespace WebIcal

/-- The built calendar carries exactly the accumulated events. -/
theorem finishCal_events {b : CalendarBuilder} {cal : Calendar}
    (h : finishCal b = .ok cal) : cal.events = b.events := by
  unfold finishCal at h
  cases hp : b.prodid with
  | none => rw [hp] at h; cases h
  | some p =>
      cases hv : b.version with
      | none => rw [hp, hv] at h; cases h
      | some ver =>
          rw [hp, hv] at h
          injection h with h
          subst h
          rfl

/-- Event accumulation composes over concatenation of block contents. -/
theorem buildEvFold_append (xs : List String) (ev : Event) (ys : List String) :
    buildEvFold ev (xs ++ ys) =
      match buildEvFold ev xs with
      | .ok e => buildEvFold e ys
      | .error m => .error m := by
  induction xs generalizing ev with
  | nil => rfl
  | cons c r ih =>
      rw [List.cons_append]
      show (match splitOnce c with
        | none => buildEvFold ev (r ++ ys)
        | some (k, v) =>
            match stepEvent ev k v with
            | .ok ev' => buildEvFold ev' (r ++ ys)
            | .error m => .error m) = _
      cases hsp : splitOnce c with
      | none => simp [buildEvFold, hsp, ih]
      | some kv =>
          obtain ⟨k, v⟩ := kv
          cases hst : stepEvent ev k v with
          | ok ev' => simp [buildEvFold, hsp, hst, ih]
          | error m => simp [buildEvFold, hsp, hst]

end WebIcal

namespace WebIcal

/-- Main correspondence: a successful run appends to the builder exactly
the events built from the well-formed BEGIN:VEVENT/END:VEVENT blocks of
the line list, in block order.  The second conjunct generalises over a
partially accumulated event inside an open block. -/
theorem runLines_blocks :
    ∀ (ls : List String) (b : CalendarBuilder),
      (∀ cal, runLines b none ls = .ok cal →
        ∃ evs, buildAll (blocksAux none ls) = .ok evs ∧
          cal.events = b.events ++ evs) ∧
      (∀ (ev : Event) (acc : List String) (cal : Calendar),
        buildEvFold Event.empty acc = .ok ev →
        runLines b (some ev) ls = .ok cal →
        ∃ evs, buildAll (blocksAux (some acc) ls) = .ok evs ∧
          cal.events = b.events ++ evs) := by
  intro ls
  induction ls with
  | nil =>
      intro b
      constructor
      · intro cal h
        simp [runLines] at h
      · intro ev acc cal hacc h
        simp [runLines] at h
  | cons l t ih =>
      intro b
      constructor
      · intro cal h
        by_cases hc : chop l = "END:VCALENDAR"
        · simp only [runLines] at h
          rw [if_pos hc] at h
          refine ⟨[], by simp [blocksAux, hc, buildAll], ?_⟩
          simp [finishCal_events h]
        · cases hsp : splitOnce (chop l) with
          | none =>
              simp only [runLines] at h
              rw [if_neg hc] at h
              rw [hsp] at h
              obtain ⟨evs, hb1, hb2⟩ := (ih b).1 cal h
              refine ⟨evs, ?_, hb2⟩
              simpa [blocksAux, hc, hsp] using hb1
          | some kv =>
              obtain ⟨k, v⟩ := kv
              by_cases hk : k = "BEGIN"
              · subst hk
                by_cases hv : v = "VEVENT"
                · subst hv
                  simp only [runLines] at h
                  rw [if_neg hc, hsp] at h
                  simp only [if_pos rfl] at h
                  obtain ⟨evs, hb1, hb2⟩ := (ih b).2 Event.empty [] cal rfl h
                  refine ⟨evs, ?_, hb2⟩
                  simpa [blocksAux, hc, hsp] using hb1
                · simp only [runLines] at h
                  rw [if_neg hc, hsp] at h
                  simp only [if_pos rfl, if_neg hv] at h
                  obtain ⟨evs, hb1, hb2⟩ := (ih b).1 cal h
                  refine ⟨evs, ?_, hb2⟩
                  simpa [blocksAux, hc, hsp, hv] using hb1
              · cases hst : stepCal b k v with
                | ok b' =>
                    simp only [runLines] at h
                    rw [if_neg hc, hsp] at h
                    simp only [if_neg hk, hst] at h
                    obtain ⟨evs, hb1, hb2⟩ := (ih b').1 cal h
                    refine ⟨evs, ?_, ?_⟩
                    · simpa [blocksAux, hc, hsp, hk] using hb1
                    · rw [hb2, stepCal_events hst]
                | error m =>
                    simp only [runLines] at h
                    rw [if_neg hc, hsp] at h
                    simp only [if_neg hk, hst] at h
                    cases h
      · intro ev acc cal hacc h
        by_cases hc : chop l = "END:VEVENT"
        · simp only [runLines] at h
          rw [if_pos hc] at h
          obtain ⟨evs, hb1, hb2⟩ :=
            (ih { b with events := b.events ++ [ev] }).1 cal h
          refine ⟨ev :: evs, ?_, ?_⟩
          · simp [blocksAux, hc, buildAll, buildEvent, hacc, hb1]
          · simp only at hb2
            rw [hb2]
            simp
        · cases hsp : splitOnce (chop l) with
          | none =>
              simp only [runLines] at h
              rw [if_neg hc, hsp] at h
              have hacc' : buildEvFold Event.empty (acc ++ [chop l]) = .ok ev := by
                rw [buildEvFold_append, hacc]
                simp [buildEvFold, hsp]
              obtain ⟨evs, hb1, hb2⟩ := (ih b).2 ev (acc ++ [chop l]) cal hacc' h
              refine ⟨evs, ?_, hb2⟩
              simpa [blocksAux, hc] using hb1
          | some kv =>
              obtain ⟨k, v⟩ := kv
              cases hst : stepEvent ev k v with
              | ok ev' =>
                  simp only [runLines] at h
                  rw [if_neg hc, hsp] at h
                  simp only [hst] at h
                  have hacc' : buildEvFold Event.empty (acc ++ [chop l]) = .ok ev' := by
                    rw [buildEvFold_append, hacc]
                    simp [buildEvFold, hsp, hst]
                  obtain ⟨evs, hb1, hb2⟩ := (ih b).2 ev' (acc ++ [chop l]) cal hacc' h
                  refine ⟨evs, ?_, hb2⟩
                  simpa [blocksAux, hc] using hb1
              | error m =>
                  simp only [runLines] at h
                  rw [if_neg hc, hsp] at h
                  simp only [hst] at h
                  cases h

end WebIcal

namespace WebIcal

/-- C7: lines with no ':' separator are skipped without aborting --
filtering them out of the line list does not change the parse result at
all, for any number and position of such lines -- and a successful parse
returns exactly one event per well-formed BEGIN:VEVENT/END:VEVENT pair,
in the order of the BEGIN markers (`eventBlocks` lists the blocks in
marker order and `buildAll` builds one event from each). -/
theorem malformed_lines_skipped_events_in_order :
    (∀ (b : CalendarBuilder) (cur : Option Event) (ls : List String),
      runLines b cur ls = runLines b cur (ls.filter goodLine)) ∧
    (∀ (ls : List String) (b : CalendarBuilder) (cal : Calendar),
      runLines b none ls = .ok cal →
      ∃ evs, buildAll (eventBlocks ls) = .ok evs ∧
        cal.events = b.events ++ evs) :=
  ⟨fun b cur ls => runLines_filter ls b cur,
   fun ls b cal h => (runLines_blocks ls b).1 cal h⟩

/-- Witness for C7: a malformed line prepended to a concrete input, and
the block correspondence at that input's successful parse. -/
theorem malformed_lines_skipped_events_in_order_witness :
    (runLines CalendarBuilder.empty none ("JUNK\n" :: c7lines) =
      runLines CalendarBuilder.empty none
        (("JUNK\n" :: c7lines).filter goodLine)) ∧
    (∃ evs, buildAll (eventBlocks c7lines) = .ok evs ∧
      c7cal.events = CalendarBuilder.empty.events ++ evs) :=
  ⟨malformed_lines_skipped_events_in_order.1 CalendarBuilder.empty none
      ("JUNK\n" :: c7lines),
   malformed_lines_skipped_events_in_order.2 c7lines CalendarBuilder.empty
      c7cal (by decide)⟩

end WebIcal
